import Mathlib

/-!
Verification of the `xbfwup` firmware-update protocol engine
(src/src/bin/xbfwup.c) against its natural-language specification.

The C program is single-threaded and synchronous; every behaviour of the
protocol engine is a function of the sequence of results returned by the
`read`, `poll` and `write` system calls it performs on the serial file
descriptor.  We therefore embed the program shallowly: the operating
system / attached device is a script (`Env`) holding one entry per system
call of each kind, and each C function becomes a Lean function that
consumes the script and returns its C result together with the bytes it
put on the wire.  Scripted streams that run out yield the failure default
(read returns 0, poll reports no data, write fails); theorems and
witnesses use scripts long enough for the runs they describe.

Conventions:
* a byte is a `Nat` (values < 256 in well-formed scripts);
* `RdRes.err` models `read` returning a negative value, `RdRes.bytes bs`
  models `read` returning `bs` (`[]` means return value 0); an entry is
  the result of one `read` call, truncated to the caller's count;
* a `writes` entry is the number of bytes one `write` call accepts
  (0 = fatal error), clamped to the requested count.
-/

abbrev Byte := Nat

/-- Result of one `read` system call on the serial descriptor. -/
inductive RdRes where
  | err : RdRes
  | bytes : List Byte → RdRes
deriving DecidableEq, Repr

/-- Scripted operating-system environment: one entry per system call. -/
structure Env where
  reads : List RdRes
  polls : List Bool
  writes : List Nat
deriving DecidableEq, Repr

/-- One `read(fd, buf, count)` call: returns (C return value, bytes read,
remaining environment).  An exhausted script reads as 0 forever. -/
def osRead (env : Env) (count : Nat) : Int × List Byte × Env :=
  match env.reads with
  | [] => (0, [], env)
  | RdRes.err :: rest => (-1, [], { env with reads := rest })
  | RdRes.bytes bs :: rest =>
      let c := bs.take count
      ((c.length : Int), c, { env with reads := rest })

/-- One `poll(fds, 1, 100)` call: `true` means data is ready. -/
def osPoll (env : Env) : Bool × Env :=
  match env.polls with
  | [] => (false, env)
  | p :: rest => (p, { env with polls := rest })

/-- One `write(fd, buf, count)` call: returns the number of bytes
accepted (clamped to `count`; 0 models a fatal error return). -/
def osWrite (env : Env) (count : Nat) : Nat × Env :=
  match env.writes with
  | [] => (0, env)
  | w :: rest => (min w count, { env with writes := rest })

/-- Loop body of C `xb_write` over the stream of `write` results:
writes the whole buffer, retrying partial writes; any `write` returning
zero or negative progress yields -1.  Returns (C return value, remaining
write script, bytes actually put on the wire). -/
def xb_write_go : List Nat → List Byte → Int × List Nat × List Byte
  | ws, [] => (0, ws, [])
  | [], _ :: _ => (-1, [], [])
  | w :: ws, b :: bs =>
      let buf := b :: bs
      let a := min w buf.length
      if a = 0 then (-1, ws, [])
      else
        let r := xb_write_go ws (buf.drop a)
        (r.1, r.2.1, buf.take a ++ r.2.2)

/-- C `xb_write(fd, buf, count)`: 0 on success, -1 on failure; also
returns the bytes actually written to the link. -/
def xb_write (env : Env) (buf : List Byte) : Int × Env × List Byte :=
  let r := xb_write_go env.writes buf
  (r.1, { env with writes := r.2.1 }, r.2.2)

/-- Loop of C `xb_read`: read available bytes until no further bytes
arrive within the 100ms poll window or `count` is reached.  Returns
(C return value, bytes accumulated in `buf`, remaining environment).
A `read` returning ≤ 0 makes `xb_read` return that value even when
bytes were already accumulated, exactly as the C does. -/
def xb_read_go (count : Nat) : List RdRes → List Bool → Nat → List Byte →
    Int × List Byte × List RdRes × List Bool
  | [], ps, _, acc => (0, acc, [], ps)
  | RdRes.err :: rs, ps, _, acc => (-1, acc, rs, ps)
  | RdRes.bytes bs :: rs, ps, pos, acc =>
      let c := bs.take (count - pos)
      if c.length = 0 then (0, acc, rs, ps)
      else
        let pos' := pos + c.length
        let acc' := acc ++ c
        match ps with
        | [] => ((pos' : Int), acc', rs, [])
        | p :: ps' =>
            if p ∧ pos' < count then xb_read_go count rs ps' pos' acc'
            else ((pos' : Int), acc', rs, ps')

/-- C `xb_read(fd, buf, count)`. -/
def xb_read (env : Env) (count : Nat) : Int × List Byte × Env :=
  let r := xb_read_go count env.reads env.polls 0 []
  (r.1, r.2.1, { reads := r.2.2.1, polls := r.2.2.2, writes := env.writes })

/-- Waiting loop of C `wait_for_ok`: single-byte reads until one returns
a positive count with first byte `'O'` (79); a read error and a read
returning no byte are both followed by `usleep(100000)` and a retry.
`none` means the whole script was consumed without seeing `'O'`, i.e.
the C loop is still running (it never exits on its own). -/
def wait_for_ok_go : List RdRes → Option (List RdRes)
  | [] => none
  | RdRes.bytes (b :: _) :: rest =>
      if b = 79 then some rest else wait_for_ok_go rest
  | _ :: rest => wait_for_ok_go rest

/-- C `wait_for_ok(fd)`: after the `'O'` byte is seen, exactly two more
single-byte reads are issued and their results are ignored.  `none`
models divergence (the loop never observes `'O'`). -/
def wait_for_ok (env : Env) : Option Env :=
  (wait_for_ok_go env.reads).map
    (fun r => { env with reads := r.drop 2 })

/-- Request construction of C `xb_send_command` (buffer `char buf[256]`).
`fmt = none` models an empty format string (no `vsnprintf` call);
`fmt = some out` models a format whose full expansion is `out`
(`vsnprintf` returns `out.length` and stores at most 251 characters
plus a terminating NUL into `buf + 4`).  Result `none` is the guard
`ret >= sizeof(buf)` firing (return -1, `CommandTooLong`); otherwise
`some (request, oob)` gives the in-bounds bytes of the request handed
to `xb_write` and a flag recording that the store `buf[off++] = '\r'`
(and part of the subsequent `xb_write(fd, buf, off)`) fell outside the
256-byte buffer, which is undefined behaviour in the C program. -/
def buildReq (c1 c2 : Byte) (fmt : Option (List Byte)) :
    Option (List Byte × Bool) :=
  match fmt with
  | none => some ([65, 84, c1, c2, 13], false)
  | some out =>
      let ret := out.length
      if 256 ≤ ret then none
      else if ret ≤ 251 then some ([65, 84, c1, c2] ++ out ++ [13], false)
      else some ([65, 84, c1, c2] ++ out.take 251 ++ [0], true)

/-- C `xb_send_command(fd, cmd, format, ...)`: builds the request, writes
it, then runs `wait_for_ok` (unconditionally, even if the write failed).
Returns the bytes written and, when `wait_for_ok` returns, the C return
value and the remaining environment (`none` = `wait_for_ok` diverges).
The guard failure returns -1 before anything is written. -/
def xb_send_command (env : Env) (c1 c2 : Byte) (fmt : Option (List Byte)) :
    List Byte × Option (Int × Env) :=
  match buildReq c1 c2 fmt with
  | none => ([], some (-1, env))
  | some (req, _) =>
      let w := xb_write env req
      (w.2.2, (wait_for_ok w.2.1).map (fun env2 => (w.1, env2)))

/-- One round of the inner bit loop of C `xmodem_crc`: `rem` is a
`uint16_t`; `rem << 1` is computed in `int` and truncated modulo 2^16 on
assignment. -/
def crcRound (rem : Nat) : Nat :=
  if rem &&& 32768 ≠ 0 then ((rem <<< 1) ^^^ 4129) % 65536
  else (rem <<< 1) % 65536

/-- Processing of one payload byte by C `xmodem_crc`: `rem ^= data[i] << 8`
followed by eight bit rounds.  `data` is `char *`; for an 8-bit byte the
sign extension of `data[i] << 8` only affects bits ≥ 16, which the
`uint16_t` assignment discards, so the low 16 bits equal
`(b % 256) <<< 8`. -/
def crcByte (rem b : Nat) : Nat :=
  crcRound^[8] ((rem ^^^ ((b % 256) <<< 8)) % 65536)

/-- C `xmodem_crc(data)` over a 128-byte block (the C loop reads exactly
`data[0..127]`; callers pass the 128-byte payload slice). -/
def xmodem_crc (data : List Byte) : Nat :=
  data.foldl crcByte 0

/-- Modelled from the spec (§4.4 checksum algorithm, stated for
reimplementation): CRC-16/XMODEM, polynomial 0x1021, initial remainder 0,
MSB-first bit processing, no final XOR.  One bit round: if the top bit of
the 16-bit remainder is set, shift left one bit and XOR with 0x1021, else
shift left only. -/
def crcRound_spec (rem : Nat) : Nat :=
  if Nat.testBit rem 15 then (2 * rem) % 65536 ^^^ 4129
  else (2 * rem) % 65536

/-- Modelled from the spec: XOR the byte shifted into the high 8 bits of
the remainder, then run eight bit rounds. -/
def crcByte_spec (rem b : Nat) : Nat :=
  crcRound_spec^[8] (rem ^^^ b * 256)

/-- Modelled from the spec: the remainder after processing all payload
bytes, starting from 0, is the checksum. -/
def xmodem_crc_spec (data : List Byte) : Nat :=
  data.foldl crcByte_spec 0

/-- Padded image length, from `len += (len % 128 ? 128 - (len % 128) : 0)`. -/
def padded_len (L : Nat) : Nat :=
  L + (if L % 128 = 0 then 0 else 128 - L % 128)

/-- In-memory firmware buffer: the file contents followed by `0xFF` fill
up to the padded length (`malloc` + `memset(fwbuf + st_size, 0xff, ...)`
+ the read loop that copies the file). -/
def fw_pad (fw : List Byte) : List Byte :=
  fw ++ List.replicate (padded_len fw.length - fw.length) 255

/-- Payload of block index `i` (0-based): bytes `[128*i, 128*i+128)` of
the padded image. -/
def blockPayload (fwp : List Byte) (i : Nat) : List Byte :=
  (fwp.drop (i * 128)).take 128

/-- Wire bytes of block index `i` (0-based): SOH, the wrapped 1-based
block number, its complement, the 128-byte payload, and the CRC most
significant byte first. -/
def blockWire (fwp : List Byte) (i : Nat) : List Byte :=
  let num := (1 + i) % 256
  let crc := xmodem_crc (blockPayload fwp i)
  [1, num, 255 - num] ++ blockPayload fwp i ++ [crc / 256 % 256, crc % 256]

/-- Exit condition of the block-sending loop of C `xb_firmware_update`:
either all blocks were sent, or one of the three `xb_write` calls failed,
or the single-byte ACK read failed or returned a byte other than 0x06.
Indices are the C loop counter `i` (0-based), as printed by the C
diagnostics. -/
inductive LoopExit where
  | ok : LoopExit
  | headerFail : Nat → LoopExit
  | dataFail : Nat → LoopExit
  | crcFail : Nat → LoopExit
  | ackFail : Nat → LoopExit
deriving DecidableEq, Repr

/-- Block loop of C `xb_firmware_update` (`for(block = 1, i = 0; ...)`)
over `rem` remaining blocks starting at loop index `i` with current
`uint8_t` block counter `blk`.  Returns (exit condition, remaining
environment, bytes written, number of per-block progress prints). -/
def sendBlocks (fwp : List Byte) : Nat → Nat → Nat → Env →
    LoopExit × Env × List Byte × Nat
  | 0, _, _, env => (LoopExit.ok, env, [], 0)
  | rem + 1, i, blk, env =>
      let header : List Byte := [1, blk, 255 - blk]
      let w1 := xb_write env header
      if w1.1 ≠ 0 then (LoopExit.headerFail i, w1.2.1, w1.2.2, 0)
      else
        let w2 := xb_write w1.2.1 (blockPayload fwp i)
        if w2.1 ≠ 0 then
          (LoopExit.dataFail i, w2.2.1, w1.2.2 ++ w2.2.2, 0)
        else
          let crc := xmodem_crc (blockPayload fwp i)
          let w3 := xb_write w2.2.1 [crc / 256 % 256, crc % 256]
          if w3.1 ≠ 0 then
            (LoopExit.crcFail i, w3.2.1, w1.2.2 ++ w2.2.2 ++ w3.2.2, 0)
          else
            let r := osRead w3.2.1 1
            if r.1 ≤ 0 ∨ r.2.1.head? ≠ some 6 then
              (LoopExit.ackFail i, r.2.2, w1.2.2 ++ w2.2.2 ++ w3.2.2, 0)
            else
              let rest := sendBlocks fwp rem (i + 1) ((blk + 1) % 256) r.2.2
              (rest.1, rest.2.1,
               w1.2.2 ++ w2.2.2 ++ w3.2.2 ++ rest.2.2.1, rest.2.2.2 + 1)

/-- Failure modes and success of C `xb_firmware_update`, one constructor
per distinct diagnostic of the C function. -/
inductive FwResult where
  | menuSelectFailed : FwResult
  | noGoAhead : FwResult
  | unexpectedTransferType : FwResult
  | emptyFirmware : FwResult
  | blockHeaderWriteFailed : Nat → FwResult
  | blockDataWriteFailed : Nat → FwResult
  | blockCrcWriteFailed : Nat → FwResult
  | blockTransferFailed : Nat → FwResult
  | eotWriteFailed : FwResult
  | transferNotConfirmed : FwResult
  | success : FwResult
deriving DecidableEq, Repr

/-- C `xb_firmware_update(xbfd, fwfd)`.  `fw` is the firmware file's
contents (`fstat` reports `fw.length`; the read loop fills the buffer
with exactly these bytes).  Returns (result, remaining environment,
bytes written to the serial link, number of progress prints). -/
def xb_firmware_update (env : Env) (fw : List Byte) :
    FwResult × Env × List Byte × Nat :=
  let w1 := xb_write env [49]
  if w1.1 ≠ 0 then (FwResult.menuSelectFailed, w1.2.1, w1.2.2, 0)
  else
    let r1 := xb_read w1.2.1 128
    if r1.1 ≤ 0 then (FwResult.noGoAhead, r1.2.2, w1.2.2, 0)
    else if r1.2.1.getLastD 0 ≠ 67 then
      (FwResult.unexpectedTransferType, r1.2.2, w1.2.2, 0)
    else if fw.length = 0 then (FwResult.emptyFirmware, r1.2.2, w1.2.2, 0)
    else
      let fwp := fw_pad fw
      let s := sendBlocks fwp (padded_len fw.length / 128) 0 1 r1.2.2
      match s.1 with
      | LoopExit.headerFail i =>
          (FwResult.blockHeaderWriteFailed i, s.2.1,
           w1.2.2 ++ s.2.2.1, s.2.2.2)
      | LoopExit.dataFail i =>
          (FwResult.blockDataWriteFailed i, s.2.1, w1.2.2 ++ s.2.2.1, s.2.2.2)
      | LoopExit.crcFail i =>
          (FwResult.blockCrcWriteFailed i, s.2.1, w1.2.2 ++ s.2.2.1, s.2.2.2)
      | LoopExit.ackFail i =>
          (FwResult.blockTransferFailed i, s.2.1, w1.2.2 ++ s.2.2.1, s.2.2.2)
      | LoopExit.ok =>
          let w2 := xb_write s.2.1 [4]
          if w2.1 ≠ 0 then
            (FwResult.eotWriteFailed, w2.2.1,
             w1.2.2 ++ s.2.2.1 ++ w2.2.2, s.2.2.2)
          else
            let r2 := xb_read w2.2.1 128
            if r2.1 ≤ 0 ∨ r2.2.1.head? ≠ some 6 then
              (FwResult.transferNotConfirmed, r2.2.2,
               w1.2.2 ++ s.2.2.1 ++ w2.2.2, s.2.2.2)
            else
              (FwResult.success, r2.2.2,
               w1.2.2 ++ s.2.2.1 ++ w2.2.2, s.2.2.2)

/-- Result of `xb_firmware_update`. -/
def updResult (env : Env) (fw : List Byte) : FwResult :=
  (xb_firmware_update env fw).1

/-- Environment remaining after `xb_firmware_update`. -/
def updEnv (env : Env) (fw : List Byte) : Env :=
  (xb_firmware_update env fw).2.1

/-- Bytes written to the serial link by `xb_firmware_update`. -/
def updTrace (env : Env) (fw : List Byte) : List Byte :=
  (xb_firmware_update env fw).2.2.1

/-- Number of per-block progress prints of `xb_firmware_update`. -/
def updProg (env : Env) (fw : List Byte) : Nat :=
  (xb_firmware_update env fw).2.2.2

/-- Bootloader-prompt probe of C `main` (`for(i = 0; i < 20; i++)`): send
a single carriage return (the `xb_write` result is not checked by the C
code) and attempt an `xb_read`; stop as soon as the read returns a
positive count.  Returns (reply observed?, remaining environment, bytes
written, number of probe attempts = carriage returns sent). -/
def probe_loop (env : Env) : Nat → Bool × Env × List Byte × Nat
  | 0 => (false, env, [], 0)
  | n + 1 =>
      let w := xb_write env [13]
      let r := xb_read w.2.1 1024
      if 0 < r.1 then (true, r.2.2, w.2.2, 1)
      else
        let rest := probe_loop r.2.2 n
        (rest.1, rest.2.1, w.2.2 ++ rest.2.2.1, rest.2.2.2 + 1)

/-- Observable actions of C `main` on the serial line, in program order:
bytes written, control-line `ioctl`s, serial break on/off, baud-rate
changes (`cfsetspeed` + `tcsetattr`), and VMIN/VTIME read-policy
changes. -/
inductive Act where
  | wire : Byte → Act
  | ctrl : Act
  | brkOn : Act
  | brkOff : Act
  | setBaud : Nat → Act
  | policy : Nat → Nat → Act
deriving DecidableEq, Repr

/-- Terminal behaviour of C `main` (from the `+++` write onward). -/
inductive MainOut where
  | hang : MainOut
  | exitFailure : MainOut
  | exitSuccess : MainOut
deriving DecidableEq, Repr

/-- The single unchecked `write(xbfd, "+++", 3)` of C `main`. -/
def rawWrite (env : Env) (buf : List Byte) : List Byte × Env :=
  let r := osWrite env buf.length
  (buf.take r.1, r.2)

/-- C `main` from the guard sequence onward: enter command mode, issue
`ATFR`, pulse the control lines and the serial break, switch to 115200
baud with a 0.1s read timeout, probe for the bootloader prompt (the
probe result is not examined: the C code falls through to the transfer
phase in every case), restore blocking reads, run the firmware update,
and on success select "run firmware" and set the link to 9600 baud.
On `xb_firmware_update` failure the C code calls `errx` and the process
exits immediately.  `sleep`/`usleep` calls and the `tcgetattr` at start
are not observable on the link and are not modelled; `tcsetattr` is
modelled as succeeding.  Returns the terminal behaviour and the ordered
action trace. -/
def main_session (env : Env) (fw : List Byte) : MainOut × List Act :=
  let r0 := rawWrite env [43, 43, 43]
  let t1 := r0.1.map Act.wire
  match wait_for_ok r0.2 with
  | none => (MainOut.hang, t1)
  | some env2 =>
      let sc := xb_send_command env2 70 82 none
      let t2 := t1 ++ sc.1.map Act.wire
      match sc.2 with
      | none => (MainOut.hang, t2)
      | some ir =>
          let t3 := t2 ++ [Act.ctrl, Act.brkOn, Act.brkOff, Act.ctrl,
                           Act.setBaud 115200, Act.policy 0 1]
          let pr := probe_loop ir.2 20
          let t4 := t3 ++ pr.2.2.1.map Act.wire ++ [Act.policy 1 0]
          let up := xb_firmware_update pr.2.1 fw
          let t5 := t4 ++ up.2.2.1.map Act.wire
          match up.1 with
          | FwResult.success =>
              let w2 := xb_write up.2.1 [50]
              (MainOut.exitSuccess,
               t5 ++ w2.2.2.map Act.wire ++ [Act.setBaud 9600])
          | _ => (MainOut.exitFailure, t5)

/-- Scripted device that acknowledges an `n`-block XMODEM transfer in
full: go-ahead reply ending in `'C'`, one ACK (0x06) per block, and an
ACK after the EOT; every `write` succeeds in one call. -/
def allAckEnv (n : Nat) : Env :=
  { reads := RdRes.bytes [67] ::
      (List.replicate n (RdRes.bytes [6]) ++ [RdRes.bytes [6]]),
    polls := [false, false],
    writes := List.replicate (3 * n + 2) 1000 }

theorem xb_write_go_nil (ws : List Nat) : xb_write_go ws [] = (0, ws, []) := by
  cases ws <;> rfl

theorem xb_write_go_success :
    ∀ ws buf ws' out, xb_write_go ws buf = (0, ws', out) → out = buf := by
  intro ws
  induction ws with
  | nil =>
      intro buf ws' out h
      cases buf with
      | nil =>
          rw [xb_write_go_nil] at h
          simp only [Prod.mk.injEq] at h
          exact h.2.2.symm
      | cons b bs => simp [xb_write_go] at h
  | cons w ws ih =>
      intro buf ws' out h
      cases buf with
      | nil =>
          rw [xb_write_go_nil] at h
          simp only [Prod.mk.injEq] at h
          exact h.2.2.symm
      | cons b bs =>
          rcases hr : xb_write_go ws ((b :: bs).drop (min w (b :: bs).length))
            with ⟨r1, rro⟩
          simp only [xb_write_go, hr] at h
          split at h
          · simp at h
          · simp only [Prod.mk.injEq] at h
            obtain ⟨h1, h2, h3⟩ := h
            rw [h1] at hr
            have hout := ih _ _ _ hr
            rw [← h3, hout, List.take_append_drop]

theorem xb_write_full (env : Env) (w : Nat) (ws : List Nat) (buf : List Byte)
    (hne : buf ≠ []) (hlen : buf.length ≤ w) (hw : env.writes = w :: ws) :
    xb_write env buf = (0, { env with writes := ws }, buf) := by
  cases buf with
  | nil => exact absurd rfl hne
  | cons b bs =>
      have ha : min w (b :: bs).length = (b :: bs).length :=
        Nat.min_eq_right hlen
      have hne0 : ¬ (min w (b :: bs).length = 0) := by
        rw [ha]; simp
      simp only [xb_write, xb_write_go, hw, ha]
      rw [if_neg (by simp)]
      simp [xb_write_go_nil]

theorem crcRound_lt (r : Nat) : crcRound r < 65536 := by
  unfold crcRound
  split <;> exact Nat.mod_lt _ (by norm_num)

theorem xor_mod_two_pow (a b n : Nat) (hb : b < 2 ^ n) :
    (a ^^^ b) % 2 ^ n = a % 2 ^ n ^^^ b := by
  apply Nat.eq_of_testBit_eq
  intro i
  rcases lt_or_le i n with h | h
  · simp [Nat.testBit_mod_two_pow, h, Nat.testBit_xor]
  · have hbz : b.testBit i = false := by
      apply Nat.testBit_eq_false_of_lt
      exact lt_of_lt_of_le hb (Nat.pow_le_pow_right (by norm_num) h)
    simp [Nat.testBit_mod_two_pow, Nat.not_lt.mpr h, Nat.testBit_xor, hbz]

theorem crcRound_eq_spec (r : Nat) : crcRound r = crcRound_spec r := by
  have hcond : (r &&& 32768 ≠ 0) ↔ (r.testBit 15 = true) := by
    have h := Nat.and_two_pow r 15
    norm_num at h
    rw [h]
    cases hb : r.testBit 15 <;> simp
  have hshift : r <<< 1 = 2 * r := by
    rw [Nat.shiftLeft_eq]; ring
  have hx : ((2 * r) ^^^ 4129) % 65536 = (2 * r) % 65536 ^^^ 4129 := by
    have h := xor_mod_two_pow (2 * r) 4129 16 (by norm_num)
    norm_num at h
    exact h
  unfold crcRound crcRound_spec
  cases hb : r.testBit 15 with
  | false =>
      rw [if_neg (by simp [hcond, hb]), if_neg (by simp), hshift]
  | true =>
      rw [if_pos (hcond.mpr hb), if_pos rfl, hshift, hx]

theorem crcRound_funext : crcRound = crcRound_spec :=
  funext crcRound_eq_spec

theorem crcByte_eq_spec (rem b : Nat) (hrem : rem < 65536) (hb : b < 256) :
    crcByte rem b = crcByte_spec rem b := by
  unfold crcByte crcByte_spec
  rw [crcRound_funext]
  congr 1
  have h1 : b % 256 = b := Nat.mod_eq_of_lt hb
  have h2 : (b % 256) <<< 8 = b * 256 := by
    simp [h1, Nat.shiftLeft_eq]
  rw [h2]
  have hlt : rem ^^^ b * 256 < 65536 := by
    have h3 : b * 256 < 65536 := by omega
    have h4 := Nat.xor_lt_two_pow (n := 16) (x := rem) (y := b * 256)
      (by norm_num [hrem]) (by norm_num [h3])
    norm_num at h4
    exact h4
  exact Nat.mod_eq_of_lt hlt

theorem crcRound_iterate_lt (n x : Nat) (hx : x < 65536) :
    crcRound^[n] x < 65536 := by
  induction n generalizing x with
  | zero => simpa using hx
  | succ n ih =>
      rw [Function.iterate_succ_apply]
      exact ih _ (crcRound_lt x)

theorem crcByte_lt (rem b : Nat) : crcByte rem b < 65536 := by
  unfold crcByte
  exact crcRound_iterate_lt 8 _ (Nat.mod_lt _ (by norm_num))

theorem foldl_crc_lt (data : List Byte) :
    ∀ acc, acc < 65536 → data.foldl crcByte acc < 65536 := by
  induction data with
  | nil => intro acc h; simpa using h
  | cons b bs ih =>
      intro acc h
      simpa using ih (crcByte acc b) (crcByte_lt acc b)

theorem foldl_crc_eq_spec (data : List Byte) (h : ∀ b ∈ data, b < 256) :
    ∀ acc, acc < 65536 → data.foldl crcByte acc = data.foldl crcByte_spec acc := by
  induction data with
  | nil => intro acc _; rfl
  | cons b bs ih =>
      intro acc hacc
      have hb : b < 256 := h b (by simp)
      have hbs : ∀ x ∈ bs, x < 256 := fun x hx => h x (by simp [hx])
      simp only [List.foldl_cons]
      rw [← crcByte_eq_spec acc b hacc hb]
      exact ih hbs (crcByte acc b) (crcByte_lt acc b)

theorem padded_len_mod (L : Nat) : padded_len L % 128 = 0 := by
  unfold padded_len; split <;> omega

theorem le_padded_len (L : Nat) : L ≤ padded_len L := by
  unfold padded_len; split <;> omega

theorem padded_len_min (L m : Nat) (hm : m % 128 = 0) (hL : L ≤ m) :
    padded_len L ≤ m := by
  unfold padded_len; split <;> omega

theorem fw_pad_length (fw : List Byte) :
    (fw_pad fw).length = padded_len fw.length := by
  have h := le_padded_len fw.length
  simp [fw_pad]
  omega

theorem fw_pad_take (fw : List Byte) : (fw_pad fw).take fw.length = fw := by
  simp [fw_pad]

theorem fw_pad_drop (fw : List Byte) :
    (fw_pad fw).drop fw.length =
      List.replicate (padded_len fw.length - fw.length) 255 := by
  simp [fw_pad]

/-- C5: for every 128-byte block payload, the transmitted checksum equals
the CRC-16/XMODEM reference (initial remainder 0, byte XORed into the
high 8 bits, 8 MSB-first rounds with polynomial 0x1021, no final XOR);
the checksum is emitted most-significant byte first after the payload in
the block's wire bytes; and an all-zero 128-byte block yields checksum
0. -/
theorem crcRound_zero : crcRound 0 = 0 := by decide

theorem crcByte_zero : crcByte 0 0 = 0 := by
  unfold crcByte
  have hs : ((0 : Nat) ^^^ ((0 % 256) <<< 8)) % 65536 = 0 := by decide
  rw [hs, Function.iterate_fixed crcRound_zero]

theorem xmodem_crc_zeros (n : Nat) : xmodem_crc (List.replicate n 0) = 0 := by
  unfold xmodem_crc
  induction n with
  | zero => rfl
  | succ n ih => rw [List.replicate_succ, List.foldl_cons, crcByte_zero]; exact ih

theorem C5_crc_matches_reference :
    (∀ data : List Byte, data.length = 128 → (∀ b ∈ data, b < 256) →
        xmodem_crc data = xmodem_crc_spec data)
    ∧ xmodem_crc (List.replicate 128 0) = 0
    ∧ (∀ fwp i, blockWire fwp i =
        [1, (1 + i) % 256, 255 - (1 + i) % 256] ++ blockPayload fwp i ++
          [xmodem_crc (blockPayload fwp i) / 256 % 256,
           xmodem_crc (blockPayload fwp i) % 256]) := by
  refine ⟨fun data _ h => foldl_crc_eq_spec data h 0 (by norm_num),
    xmodem_crc_zeros 128, fun fwp i => rfl⟩

theorem C5_crc_matches_reference_witness :
    (List.replicate 128 255).length = 128 ∧
    xmodem_crc (List.replicate 128 255) = xmodem_crc_spec (List.replicate 128 255) :=
  ⟨by rw [List.length_replicate],
   C5_crc_matches_reference.1 (List.replicate 128 255)
     (by rw [List.length_replicate])
     (by intro b hb; rw [List.mem_replicate] at hb; rw [hb.2]; norm_num)⟩

/-- C2: the claim says `xb_send_command` fails with `CommandTooLong`
exactly when the built request (2 + 2 + argument + 1 bytes) exceeds the
256-byte buffer.  The C guard compares the `vsnprintf` result against
`sizeof(buf)` instead of the remaining space `sizeof(buf) - off`: a
252-byte formatted argument builds a 257-byte request, yet the guard
passes, the argument is truncated to 251 stored bytes, and the store of
the terminating carriage return goes out of bounds (`oob = true`). -/
theorem C2_command_too_long_guard_off_by_four :
    256 < 5 + (List.replicate 252 48 : List Byte).length ∧
    buildReq 88 89 (some (List.replicate 252 48)) =
      some ([65, 84, 88, 89] ++ List.replicate 251 48 ++ [0], true) := by
  constructor
  · rw [List.length_replicate]; norm_num
  · simp only [buildReq, List.length_replicate, List.take_replicate]
    norm_num

theorem xb_write_success_out (env : Env) (buf : List Byte) (e' : Env)
    (out : List Byte) (h : xb_write env buf = (0, e', out)) : out = buf := by
  rcases hg : xb_write_go env.writes buf with ⟨g1, gws, gout⟩
  unfold xb_write at h
  rw [hg] at h
  simp only [Prod.mk.injEq] at h
  obtain ⟨h1, -, h3⟩ := h
  rw [h1] at hg
  exact h3 ▸ xb_write_go_success env.writes buf gws gout hg

theorem update_menuFail (env : Env) (fw : List Byte) (r1 : Int) (env1 : Env)
    (out1 : List Byte) (hw : xb_write env [49] = (r1, env1, out1))
    (h1 : r1 ≠ 0) :
    xb_firmware_update env fw = (FwResult.menuSelectFailed, env1, out1, 0) := by
  simp only [xb_firmware_update, hw]
  rw [if_pos h1]

theorem update_noGoAhead (env : Env) (fw : List Byte) (env1 : Env)
    (out1 : List Byte) (ri : Int) (rbs : List Byte) (renv : Env)
    (hw : xb_write env [49] = (0, env1, out1))
    (hr : xb_read env1 128 = (ri, rbs, renv)) (hri : ri ≤ 0) :
    xb_firmware_update env fw = (FwResult.noGoAhead, renv, out1, 0) := by
  simp only [xb_firmware_update, hw, hr]
  rw [if_neg (by simp), if_pos hri]

theorem update_badType (env : Env) (fw : List Byte) (env1 : Env)
    (out1 : List Byte) (ri : Int) (rbs : List Byte) (renv : Env)
    (hw : xb_write env [49] = (0, env1, out1))
    (hr : xb_read env1 128 = (ri, rbs, renv)) (hri : ¬ ri ≤ 0)
    (hlast : rbs.getLastD 0 ≠ 67) :
    xb_firmware_update env fw = (FwResult.unexpectedTransferType, renv, out1, 0) := by
  simp only [xb_firmware_update, hw, hr]
  rw [if_neg (by simp), if_neg hri, if_pos hlast]

theorem update_empty (env : Env) (fw : List Byte) (env1 : Env)
    (out1 : List Byte) (ri : Int) (rbs : List Byte) (renv : Env)
    (hw : xb_write env [49] = (0, env1, out1))
    (hr : xb_read env1 128 = (ri, rbs, renv)) (hri : ¬ ri ≤ 0)
    (hlast : ¬ rbs.getLastD 0 ≠ 67) (hfw : fw.length = 0) :
    xb_firmware_update env fw = (FwResult.emptyFirmware, renv, out1, 0) := by
  simp only [xb_firmware_update, hw, hr]
  rw [if_neg (by simp), if_neg hri, if_neg hlast, if_pos hfw]

theorem update_blocks_ackFail (env : Env) (fw : List Byte) (env1 : Env)
    (out1 : List Byte) (ri : Int) (rbs : List Byte) (renv senv : Env)
    (i sprog : Nat) (sout : List Byte)
    (hw : xb_write env [49] = (0, env1, out1))
    (hr : xb_read env1 128 = (ri, rbs, renv)) (hri : ¬ ri ≤ 0)
    (hlast : ¬ rbs.getLastD 0 ≠ 67) (hfw : fw.length ≠ 0)
    (hs : sendBlocks (fw_pad fw) (padded_len fw.length / 128) 0 1 renv =
      (LoopExit.ackFail i, senv, sout, sprog)) :
    xb_firmware_update env fw =
      (FwResult.blockTransferFailed i, senv, out1 ++ sout, sprog) := by
  simp only [xb_firmware_update, hw, hr, hs]
  rw [if_neg (by simp), if_neg hri, if_neg hlast, if_neg hfw]

theorem update_blocks_success (env : Env) (fw : List Byte) (env1 : Env)
    (out1 : List Byte) (ri : Int) (rbs : List Byte) (renv senv : Env)
    (sprog : Nat) (sout : List Byte) (wenv : Env) (wout : List Byte)
    (ci : Int) (cbs : List Byte) (cenv : Env)
    (hw : xb_write env [49] = (0, env1, out1))
    (hr : xb_read env1 128 = (ri, rbs, renv)) (hri : ¬ ri ≤ 0)
    (hlast : ¬ rbs.getLastD 0 ≠ 67) (hfw : fw.length ≠ 0)
    (hs : sendBlocks (fw_pad fw) (padded_len fw.length / 128) 0 1 renv =
      (LoopExit.ok, senv, sout, sprog))
    (hw2 : xb_write senv [4] = (0, wenv, wout))
    (hr2 : xb_read wenv 128 = (ci, cbs, cenv)) (hci : ¬ ci ≤ 0)
    (hhead : cbs.head? = some 6) :
    xb_firmware_update env fw =
      (FwResult.success, cenv, out1 ++ sout ++ wout, sprog) := by
  simp only [xb_firmware_update, hw, hr, hs, hw2, hr2]
  rw [if_neg (by simp), if_neg hri, if_neg hlast, if_neg hfw, if_neg (by simp),
    if_neg (by simp [hci, hhead])]

theorem xb_write_reads (env : Env) (buf : List Byte) :
    (xb_write env buf).2.1.reads = env.reads := rfl

theorem osRead_reads (env : Env) (c : Nat) :
    (osRead env c).2.2.reads = env.reads.tail := by
  rcases env with ⟨rds, ps, ws⟩
  rcases rds with - | ⟨e, rest⟩
  · rfl
  · cases e <;> rfl

theorem sendBlocks_ackFail :
    ∀ rem fwp i blk env j env' out prog,
      blk = (1 + i) % 256 →
      sendBlocks fwp rem i blk env = (LoopExit.ackFail j, env', out, prog) →
      i ≤ j ∧ j < i + rem ∧
      out = (List.range' i (j + 1 - i)).flatMap (blockWire fwp) ∧
      env'.reads = env.reads.drop (j + 1 - i) ∧
      prog = j - i := by
  intro rem
  induction rem with
  | zero =>
      intro fwp i blk env j env' out prog hblk h
      simp [sendBlocks] at h
  | succ rem ih =>
      intro fwp i blk env j env' out prog hblk h
      subst hblk
      simp only [sendBlocks] at h
      rcases hw1 : xb_write env [1, (1 + i) % 256, 255 - (1 + i) % 256]
        with ⟨a1, e1, o1⟩
      rw [hw1] at h
      by_cases hc1 : a1 ≠ 0
      · rw [if_pos hc1] at h
        simp at h
      · push_neg at hc1
        rw [if_neg (by simp [hc1])] at h
        subst hc1
        have ho1 : o1 = [1, (1 + i) % 256, 255 - (1 + i) % 256] :=
          xb_write_success_out _ _ _ _ hw1
        simp only at h
        rcases hw2 : xb_write e1 (blockPayload fwp i) with ⟨a2, e2, o2⟩
        rw [hw2] at h
        by_cases hc2 : a2 ≠ 0
        · rw [if_pos hc2] at h
          simp at h
        · push_neg at hc2
          rw [if_neg (by simp [hc2])] at h
          subst hc2
          have ho2 : o2 = blockPayload fwp i := xb_write_success_out _ _ _ _ hw2
          simp only at h
          rcases hw3 : xb_write e2 [xmodem_crc (blockPayload fwp i) / 256 % 256,
            xmodem_crc (blockPayload fwp i) % 256] with ⟨a3, e3, o3⟩
          rw [hw3] at h
          by_cases hc3 : a3 ≠ 0
          · rw [if_pos hc3] at h
            simp at h
          · push_neg at hc3
            rw [if_neg (by simp [hc3])] at h
            subst hc3
            have ho3 : o3 = [xmodem_crc (blockPayload fwp i) / 256 % 256,
              xmodem_crc (blockPayload fwp i) % 256] :=
              xb_write_success_out _ _ _ _ hw3
            have hre1 : e1.reads = env.reads := by
              have hh := xb_write_reads env
                [1, (1 + i) % 256, 255 - (1 + i) % 256]
              rw [hw1] at hh
              simpa using hh
            have hre2 : e2.reads = e1.reads := by
              have hh := xb_write_reads e1 (blockPayload fwp i)
              rw [hw2] at hh
              simpa using hh
            have hre3 : e3.reads = e2.reads := by
              have hh := xb_write_reads e2
                [xmodem_crc (blockPayload fwp i) / 256 % 256,
                 xmodem_crc (blockPayload fwp i) % 256]
              rw [hw3] at hh
              simpa using hh
            simp only at h
            rcases hrd : osRead e3 1 with ⟨rv, rb, e4⟩
            rw [hrd] at h
            have hre4 : e4.reads = env.reads.tail := by
              have hh := osRead_reads e3 1
              rw [hrd] at hh
              simpa [hre1, hre2, hre3] using hh
            simp only at h
            by_cases hack : rv ≤ 0 ∨ rb.head? ≠ some 6
            · rw [if_pos hack] at h
              simp only [Prod.mk.injEq] at h
              obtain ⟨hj, henv, hout, hprog⟩ := h
              have hij : i = j := by simpa using hj
              subst hij
              refine ⟨le_refl i, by omega, ?_, ?_, by omega⟩
              · rw [← hout, ho1, ho2, ho3]
                have hr1 : i + 1 - i = 1 := by omega
                rw [hr1]
                simp [List.range'_succ, blockWire]
              · rw [← henv, hre4]
                have hr1 : i + 1 - i = 1 := by omega
                rw [hr1, List.drop_one]
            · rw [if_neg hack] at h
              rcases hrec : sendBlocks fwp rem (i + 1) (((1 + i) % 256 + 1) % 256) e4
                with ⟨rl, re, ro, rp⟩
              rw [hrec] at h
              simp only [Prod.mk.injEq] at h
              obtain ⟨hj, henv, hout, hprog⟩ := h
              rw [hj] at hrec
              have hblk2 : ((1 + i) % 256 + 1) % 256 = (1 + (i + 1)) % 256 := by
                omega
              rw [hblk2] at hrec
              obtain ⟨hle, hlt, hro, hreads, hrp⟩ :=
                ih fwp (i + 1) _ e4 j re ro rp rfl hrec
              refine ⟨by omega, by omega, ?_, ?_, by omega⟩
              · rw [← hout, ho1, ho2, ho3, hro]
                have hr2 : j + 1 - (i + 1) = j - i := by omega
                have hr1 : j + 1 - i = (j - i) + 1 := by omega
                rw [hr2, hr1, List.range'_succ, List.flatMap_cons]
                simp [blockWire, List.append_assoc]
              · rw [← henv, hreads, hre4]
                have hr1 : j + 1 - i = 1 + (j + 1 - (i + 1)) := by omega
                rw [hr1, ← List.drop_drop, List.drop_one]

theorem blockPayload_length (fwp : List Byte) (i : Nat)
    (h : 128 * (i + 1) ≤ fwp.length) : (blockPayload fwp i).length = 128 := by
  simp [blockPayload]
  omega

theorem osRead_bytes_cons (bs : List Byte) (rest : List RdRes) (ps : List Bool)
    (ws : List Nat) (c : Nat) :
    osRead { reads := RdRes.bytes bs :: rest, polls := ps, writes := ws } c =
      (((bs.take c).length : Int), bs.take c,
       { reads := rest, polls := ps, writes := ws }) := rfl

theorem sendBlocks_allAck :
    ∀ rem fwp i r' w' ps,
      128 * (i + rem) ≤ fwp.length →
      sendBlocks fwp rem i ((1 + i) % 256)
        { reads := List.replicate rem (RdRes.bytes [6]) ++ r',
          polls := ps,
          writes := List.replicate (3 * rem) 1000 ++ w' } =
      (LoopExit.ok, { reads := r', polls := ps, writes := w' },
       (List.range' i rem).flatMap (blockWire fwp), rem) := by
  intro rem
  induction rem with
  | zero =>
      intro fwp i r' w' ps hlen
      simp [sendBlocks]
  | succ rem ih =>
      intro fwp i r' w' ps hlen
      have hrep : List.replicate (3 * (rem + 1)) (1000 : Nat) ++ w' =
          1000 :: 1000 :: 1000 :: (List.replicate (3 * rem) 1000 ++ w') := by
        have h3 : 3 * (rem + 1) = ((3 * rem) + 1 + 1) + 1 := by ring
        rw [h3]
        simp [List.replicate_succ]
      have hrdrep : List.replicate (rem + 1) (RdRes.bytes [6]) ++ r' =
          RdRes.bytes [6] :: (List.replicate rem (RdRes.bytes [6]) ++ r') := by
        simp [List.replicate_succ]
      simp only [sendBlocks]
      rw [hrep, hrdrep]
      rw [xb_write_full _ 1000
        (1000 :: 1000 :: (List.replicate (3 * rem) 1000 ++ w'))
        [1, (1 + i) % 256, 255 - (1 + i) % 256] (by simp) (by simp) rfl]
      rw [if_neg (by simp)]
      have hpay : (blockPayload fwp i).length = 128 :=
        blockPayload_length fwp i (by omega)
      rw [xb_write_full _ 1000 (1000 :: (List.replicate (3 * rem) 1000 ++ w'))
        (blockPayload fwp i) (by rw [← List.length_pos]; omega)
        (by rw [hpay]; omega) rfl]
      rw [if_neg (by simp)]
      rw [xb_write_full _ 1000 (List.replicate (3 * rem) 1000 ++ w')
        [xmodem_crc (blockPayload fwp i) / 256 % 256,
         xmodem_crc (blockPayload fwp i) % 256] (by simp) (by simp) rfl]
      rw [if_neg (by simp)]
      rw [osRead_bytes_cons]
      rw [if_neg (by simp)]
      have hblk2 : ((1 + i) % 256 + 1) % 256 = (1 + (i + 1)) % 256 := by omega
      rw [hblk2]
      rw [ih fwp (i + 1) r' w' ps (by omega)]
      simp [List.range'_succ, blockWire, List.append_assoc]

theorem xb_read_chunk (bs : List Byte) (rest : List RdRes) (ps : List Bool)
    (ws : List Nat) (count : Nat) (hne : bs.take count ≠ []) :
    xb_read { reads := RdRes.bytes bs :: rest, polls := false :: ps,
              writes := ws } count =
      (((bs.take count).length : Int), bs.take count,
       { reads := rest, polls := ps, writes := ws }) := by
  simp only [xb_read, xb_read_go, Nat.sub_zero]
  rw [if_neg (by simpa using hne)]
  simp

theorem xb_firmware_update_allAck (fw : List Byte) (n : Nat)
    (hfw : fw.length ≠ 0) (hn : padded_len fw.length = 128 * n) :
    xb_firmware_update (allAckEnv n) fw =
      (FwResult.success, Env.mk [] [] [],
       49 :: ((List.range n).flatMap (blockWire (fw_pad fw)) ++ [4]), n) := by
  have hwmenu : xb_write (allAckEnv n) [49] =
      (0, Env.mk (RdRes.bytes [67] ::
            (List.replicate n (RdRes.bytes [6]) ++ [RdRes.bytes [6]]))
          [false, false] (List.replicate (3 * n + 1) 1000), [49]) := by
    have h1 : List.replicate (3 * n + 2) (1000 : Nat) =
        1000 :: List.replicate (3 * n + 1) 1000 := by
      simp [List.replicate_succ]
    have h2 := xb_write_full (allAckEnv n) 1000 (List.replicate (3 * n + 1) 1000)
      [49] (by simp) (by simp) (by simp [allAckEnv, h1])
    simpa [allAckEnv] using h2
  have hrga : xb_read (Env.mk (RdRes.bytes [67] ::
        (List.replicate n (RdRes.bytes [6]) ++ [RdRes.bytes [6]]))
        [false, false] (List.replicate (3 * n + 1) 1000)) 128 =
      (1, [67], Env.mk (List.replicate n (RdRes.bytes [6]) ++ [RdRes.bytes [6]])
        [false] (List.replicate (3 * n + 1) 1000)) := by
    have h := xb_read_chunk [67]
      (List.replicate n (RdRes.bytes [6]) ++ [RdRes.bytes [6]]) [false]
      (List.replicate (3 * n + 1) 1000) 128 (by simp)
    simpa using h
  have hsend := sendBlocks_allAck n (fw_pad fw) 0 [RdRes.bytes [6]] [1000] [false]
    (by rw [fw_pad_length, hn]; omega)
  norm_num at hsend
  have hwrites : List.replicate (3 * n + 1) (1000 : Nat) =
      List.replicate (3 * n) 1000 ++ [1000] := by
    rw [List.replicate_succ']
  have heot : xb_write (Env.mk [RdRes.bytes [6]] [false] [1000]) [4] =
      (0, Env.mk [RdRes.bytes [6]] [false] [], [4]) :=
    xb_write_full _ 1000 [] [4] (by simp) (by simp) rfl
  have hconf : xb_read (Env.mk [RdRes.bytes [6]] [false] []) 128 =
      (1, [6], Env.mk [] [] []) := by
    have h := xb_read_chunk [6] [] [] [] 128 (by simp)
    simpa using h
  have hdiv : padded_len fw.length / 128 = n := by rw [hn]; omega
  have hmain := update_blocks_success (allAckEnv n) fw _ [49] 1 [67] _ _ n _ _ [4]
    1 [6] _ hwmenu hrga (by norm_num) (by simp) hfw
    (by rw [hdiv, hwrites]; exact hsend) heot hconf (by norm_num) (by simp)
  rw [hmain]
  simp [List.range_eq_range']

theorem update_blockFail_inv (env : Env) (fw : List Byte) (i : Nat)
    (h : updResult env fw = FwResult.blockTransferFailed i) :
    ∃ e1 ri rbs renv senv sout sprog,
      xb_write env [49] = (0, e1, [49]) ∧
      xb_read e1 128 = (ri, rbs, renv) ∧ ¬ ri ≤ 0 ∧
      rbs.getLastD 0 = 67 ∧ fw.length ≠ 0 ∧
      sendBlocks (fw_pad fw) (padded_len fw.length / 128) 0 1 renv =
        (LoopExit.ackFail i, senv, sout, sprog) ∧
      xb_firmware_update env fw =
        (FwResult.blockTransferFailed i, senv, [49] ++ sout, sprog) := by
  rcases hw : xb_write env [49] with ⟨a1, e1, o1⟩
  unfold updResult at h
  simp only [xb_firmware_update, hw] at h
  by_cases h1 : a1 ≠ 0
  · rw [if_pos h1] at h
    simp at h
  · push_neg at h1
    subst h1
    have ho1 : o1 = [49] := xb_write_success_out _ _ _ _ hw
    subst ho1
    rcases hr : xb_read e1 128 with ⟨ri, rbs, renv⟩
    try simp only at h
    rw [hr] at h
    try simp only at h
    by_cases h2 : ri ≤ 0
    · rw [if_pos h2] at h
      simp at h
    · rw [if_neg h2] at h
      by_cases h3 : rbs.getLastD 0 ≠ 67
      · rw [if_pos h3] at h
        simp at h
      · rw [if_neg h3] at h
        push_neg at h3
        by_cases h4 : fw.length = 0
        · rw [if_pos h4] at h
          simp at h
        · rw [if_neg h4] at h
          rcases hs : sendBlocks (fw_pad fw) (padded_len fw.length / 128) 0 1 renv
            with ⟨sl, se, so, sp⟩
          rw [hs] at h
          cases sl with
          | ok =>
              try simp only at h
              rcases hw2 : xb_write se [4] with ⟨b1, we, wo⟩
              rw [hw2] at h
              by_cases h5 : b1 ≠ 0
              · rw [if_pos h5] at h
                simp at h
              · rw [if_neg h5] at h
                try simp only at h
                rcases hr2 : xb_read we 128 with ⟨ci, cb, ce⟩
                rw [hr2] at h
                try simp only at h
                by_cases h6 : ci ≤ 0 ∨ cb.head? ≠ some 6
                · rw [if_pos h6] at h
                  simp at h
                · rw [if_neg h6] at h
                  simp at h
          | headerFail k => simp at h
          | dataFail k => simp at h
          | crcFail k => simp at h
          | ackFail k =>
              try simp only at h
              have hk : k = i := by simpa using h
              subst hk
              refine ⟨e1, ri, rbs, renv, se, so, sp, rfl, hr, h2, h3, h4, hs, ?_⟩
              exact update_blocks_ackFail env fw e1 [49] ri rbs renv se k sp so
                hw hr h2 (not_not_intro h3) h4 hs

theorem xb_read_err_head (rs : List RdRes) (ps : List Bool) (ws : List Nat)
    (c : Nat) :
    xb_read (Env.mk (RdRes.err :: rs) ps ws) c = (-1, [], Env.mk rs ps ws) := rfl

theorem xb_read_nil_head (rs : List RdRes) (ps : List Bool) (ws : List Nat)
    (c : Nat) :
    xb_read (Env.mk (RdRes.bytes [] :: rs) ps ws) c = (0, [], Env.mk rs ps ws) := by
  simp [xb_read, xb_read_go]

theorem update_early_inv (env : Env) (fw : List Byte)
    (h : updResult env fw = FwResult.noGoAhead ∨
         updResult env fw = FwResult.unexpectedTransferType ∨
         updResult env fw = FwResult.emptyFirmware) :
    ∃ r renv, xb_firmware_update env fw = (r, renv, [49], 0) := by
  rcases hw : xb_write env [49] with ⟨a1, e1, o1⟩
  unfold updResult at h
  simp only [xb_firmware_update, hw] at h
  by_cases h1 : a1 ≠ 0
  · rw [if_pos h1] at h
    simp at h
  · push_neg at h1
    subst h1
    have ho1 : o1 = [49] := xb_write_success_out _ _ _ _ hw
    subst ho1
    rcases hr : xb_read e1 128 with ⟨ri, rbs, renv⟩
    try simp only at h
    rw [hr] at h
    try simp only at h
    by_cases h2 : ri ≤ 0
    · exact ⟨_, _, update_noGoAhead env fw e1 [49] ri rbs renv hw hr h2⟩
    · rw [if_neg h2] at h
      by_cases h3 : rbs.getLastD 0 ≠ 67
      · exact ⟨_, _, update_badType env fw e1 [49] ri rbs renv hw hr h2 h3⟩
      · rw [if_neg h3] at h
        by_cases h4 : fw.length = 0
        · exact ⟨_, _, update_empty env fw e1 [49] ri rbs renv hw hr h2 h3 h4⟩
        · rw [if_neg h4] at h
          exfalso
          rcases hs : sendBlocks (fw_pad fw) (padded_len fw.length / 128) 0 1 renv
            with ⟨sl, se, so, sp⟩
          rw [hs] at h
          cases sl with
          | ok =>
              try simp only at h
              rcases hw2 : xb_write se [4] with ⟨b1, we, wo⟩
              rw [hw2] at h
              by_cases h5 : b1 ≠ 0
              · rw [if_pos h5] at h
                simp at h
              · rw [if_neg h5] at h
                try simp only at h
                rcases hr2 : xb_read we 128 with ⟨ci, cb, ce⟩
                rw [hr2] at h
                try simp only at h
                by_cases h6 : ci ≤ 0 ∨ cb.head? ≠ some 6
                · rw [if_pos h6] at h
                  simp at h
                · rw [if_neg h6] at h
                  simp at h
          | headerFail k => simp at h
          | dataFail k => simp at h
          | crcFail k => simp at h
          | ackFail k => simp at h

/-- C7: after each block's header, payload and checksum are written, the
engine reads exactly one reply byte; if it is not ACK (0x06) or the read
fails, the transfer aborts with the block's (0-based) loop index, the
wire trace ends exactly with that block's checksum — no byte of any
later block and no EOT is written — and one progress print was made per
completed block.  The second conjunct states the one-reply-byte-per-block
accounting on the block loop itself: on an abort at block `j`, exactly
`j + 1 - i` read results were consumed since loop entry at index `i`. -/
theorem C7_nak_aborts_transfer :
    (∀ env fw i, updResult env fw = FwResult.blockTransferFailed i →
        updTrace env fw =
          49 :: (List.range (i + 1)).flatMap (blockWire (fw_pad fw)) ∧
        updProg env fw = i) ∧
    (∀ fwp rem i blk env j env' out prog,
        blk = (1 + i) % 256 →
        sendBlocks fwp rem i blk env = (LoopExit.ackFail j, env', out, prog) →
        env'.reads = env.reads.drop (j + 1 - i)) := by
  constructor
  · intro env fw i h
    obtain ⟨e1, ri, rbs, renv, senv, sout, sprog, hw, hr, h2, h3, h4, hs, heq⟩ :=
      update_blockFail_inv env fw i h
    obtain ⟨-, -, hout, -, hprog⟩ :=
      sendBlocks_ackFail (padded_len fw.length / 128) (fw_pad fw) 0 1 renv
        i senv sout sprog (by norm_num) hs
    constructor
    · unfold updTrace
      rw [heq]
      simp [hout, List.range_eq_range']
    · unfold updProg
      rw [heq]
      simpa using hprog
  · intro fwp rem i blk env j env' out prog hblk h
    exact (sendBlocks_ackFail rem fwp i blk env j env' out prog hblk h).2.2.2.1

set_option maxRecDepth 8000 in
theorem C7_nak_aborts_transfer_witness :
    updResult (Env.mk [RdRes.bytes [67], RdRes.bytes [21]] [false]
        (List.replicate 9 1000)) (List.replicate 128 0)
      = FwResult.blockTransferFailed 0 ∧
    updTrace (Env.mk [RdRes.bytes [67], RdRes.bytes [21]] [false]
        (List.replicate 9 1000)) (List.replicate 128 0)
      = 49 :: (List.range 1).flatMap
          (blockWire (fw_pad (List.replicate 128 0))) :=
  ⟨by decide,
   (C7_nak_aborts_transfer.1
     (Env.mk [RdRes.bytes [67], RdRes.bytes [21]] [false]
       (List.replicate 9 1000)) (List.replicate 128 0) 0 (by decide)).1⟩

/-- C8: after the upload menu selection, the go-ahead reply is idle-read;
if it ends in a byte other than `'C'` (67) the transfer aborts with the
"unknown transfer type" failure, and if the read fails it aborts with the
"no go-ahead" failure; in either case the wire trace is exactly the menu
byte `'1'` (49) — not a single byte of the firmware image is
transmitted. -/
theorem C8_go_ahead_must_end_in_C :
    (∀ env fw, updResult env fw = FwResult.noGoAhead ∨
        updResult env fw = FwResult.unexpectedTransferType →
        updTrace env fw = [49]) ∧
    (∀ fw bs rs ps ws w0, 1 ≤ w0 → bs ≠ [] → bs.length ≤ 128 →
        bs.getLastD 0 ≠ 67 →
        updResult (Env.mk (RdRes.bytes bs :: rs) (false :: ps) (w0 :: ws)) fw =
          FwResult.unexpectedTransferType) ∧
    (∀ fw rs ps ws w0, 1 ≤ w0 →
        updResult (Env.mk (RdRes.err :: rs) ps (w0 :: ws)) fw =
          FwResult.noGoAhead) := by
  refine ⟨?_, ?_, ?_⟩
  · intro env fw h
    obtain ⟨r, renv, heq⟩ := update_early_inv env fw (by tauto)
    unfold updTrace
    rw [heq]
  · intro fw bs rs ps ws w0 hw0 hne hlen hlast
    have htake : bs.take 128 = bs := List.take_of_length_le hlen
    have hwmenu := xb_write_full (Env.mk (RdRes.bytes bs :: rs) (false :: ps)
      (w0 :: ws)) w0 ws [49] (by simp) (by simpa using hw0) rfl
    have hrd := xb_read_chunk bs rs ps ws 128 (by rw [htake]; exact hne)
    rw [htake] at hrd
    have hridpos : ¬ ((bs.length : Int) ≤ 0) := by
      simp only [not_le]
      exact_mod_cast List.length_pos.mpr hne
    have h := update_badType _ fw _ [49] _ bs _ hwmenu hrd hridpos hlast
    unfold updResult
    rw [h]
  · intro fw rs ps ws w0 hw0
    have hwmenu := xb_write_full (Env.mk (RdRes.err :: rs) ps (w0 :: ws))
      w0 ws [49] (by simp) (by simpa using hw0) rfl
    have h := update_noGoAhead _ fw _ [49] (-1) [] _ hwmenu
      (xb_read_err_head rs ps ws 128) (by norm_num)
    unfold updResult
    rw [h]

theorem C8_go_ahead_must_end_in_C_witness :
    updResult (Env.mk [RdRes.bytes [88]] [false] [1000]) (List.replicate 128 0) =
      FwResult.unexpectedTransferType ∧
    updTrace (Env.mk [RdRes.bytes [88]] [false] [1000]) (List.replicate 128 0) =
      [49] :=
  ⟨C8_go_ahead_must_end_in_C.2.1 (List.replicate 128 0) [88] [] [] [] 1000
     (by norm_num) (by simp) (by simp) (by decide),
   C8_go_ahead_must_end_in_C.1
     (Env.mk [RdRes.bytes [88]] [false] [1000]) (List.replicate 128 0)
     (Or.inr (C8_go_ahead_must_end_in_C.2.1 (List.replicate 128 0) [88] [] [] []
       1000 (by norm_num) (by simp) (by simp) (by decide)))⟩

/-- C9: the upload menu byte is written and the go-ahead reply consumed
before the firmware is ever examined: with an empty firmware image and a
live go-ahead, the run fails with the "empty firmware" diagnostic only
after the menu byte `'1'` is on the wire and the go-ahead reply has been
consumed from the device; and when the go-ahead read fails, the empty
check is never reached — the result is the no-go-ahead failure even for
an empty image. -/
theorem C9_empty_rejected_after_handshake :
    (∀ bs rs ps ws w0, 1 ≤ w0 → bs ≠ [] → bs.length ≤ 128 →
        bs.getLastD 0 = 67 →
        updResult (Env.mk (RdRes.bytes bs :: rs) (false :: ps) (w0 :: ws)) [] =
          FwResult.emptyFirmware ∧
        updTrace (Env.mk (RdRes.bytes bs :: rs) (false :: ps) (w0 :: ws)) [] =
          [49] ∧
        (updEnv (Env.mk (RdRes.bytes bs :: rs) (false :: ps) (w0 :: ws)) []).reads
          = rs) ∧
    (∀ rs ps ws w0, 1 ≤ w0 →
        updResult (Env.mk (RdRes.err :: rs) ps (w0 :: ws)) [] =
          FwResult.noGoAhead) := by
  constructor
  · intro bs rs ps ws w0 hw0 hne hlen hlast
    have htake : bs.take 128 = bs := List.take_of_length_le hlen
    have hwmenu := xb_write_full (Env.mk (RdRes.bytes bs :: rs) (false :: ps)
      (w0 :: ws)) w0 ws [49] (by simp) (by simpa using hw0) rfl
    have hrd := xb_read_chunk bs rs ps ws 128 (by rw [htake]; exact hne)
    rw [htake] at hrd
    have hridpos : ¬ ((bs.length : Int) ≤ 0) := by
      simp only [not_le]
      exact_mod_cast List.length_pos.mpr hne
    have h := update_empty _ [] _ [49] _ bs _ hwmenu hrd hridpos
      (not_not_intro hlast) rfl
    unfold updResult updTrace updEnv
    rw [h]
    exact ⟨rfl, rfl, rfl⟩
  · intro rs ps ws w0 hw0
    have hwmenu := xb_write_full (Env.mk (RdRes.err :: rs) ps (w0 :: ws))
      w0 ws [49] (by simp) (by simpa using hw0) rfl
    have h := update_noGoAhead _ [] _ [49] (-1) [] _ hwmenu
      (xb_read_err_head rs ps ws 128) (by norm_num)
    unfold updResult
    rw [h]

theorem C9_empty_rejected_after_handshake_witness :
    updResult (Env.mk [RdRes.bytes [67]] [false] [1000]) [] =
      FwResult.emptyFirmware ∧
    updTrace (Env.mk [RdRes.bytes [67]] [false] [1000]) [] = [49] :=
  ⟨(C9_empty_rejected_after_handshake.1 [67] [] [] [] 1000 (by norm_num)
      (by simp) (by simp) (by decide)).1,
   (C9_empty_rejected_after_handshake.1 [67] [] [] [] 1000 (by norm_num)
      (by simp) (by simp) (by decide)).2.1⟩

theorem blockWire_length (fwp : List Byte) (i : Nat)
    (h : 128 * (i + 1) ≤ fwp.length) : (blockWire fwp i).length = 133 := by
  have hp := blockPayload_length fwp i h
  simp [blockWire, hp]

theorem flatMap_blockWire_length (fwp : List Byte) :
    ∀ k s, 128 * (s + k) ≤ fwp.length →
      ((List.range' s k).flatMap (blockWire fwp)).length = 133 * k := by
  intro k
  induction k with
  | zero => intro s h; simp
  | succ k ih =>
      intro s h
      rw [List.range'_succ, List.flatMap_cons, List.length_append,
        blockWire_length fwp s (by omega), ih (s + 1) (by omega)]
      ring

/-- C3 (amended): the wire block-number byte of the block at 0-based
index `i` is `(1 + i) % 256` — the 1-based sequence counter reduced
modulo 256 — with complement byte `255 - (1 + i) % 256`; in particular
the 257th block (index 256) carries wire number 1 again with complement
254.  The counter is 0, not skipped, whenever the 1-based index is a
multiple of 256 (see the counterexample). -/
theorem C3_block_number_wraps_mod_256 :
    (∀ fw n, fw.length ≠ 0 → padded_len fw.length = 128 * n →
        updResult (allAckEnv n) fw = FwResult.success ∧
        updTrace (allAckEnv n) fw =
          49 :: ((List.range n).flatMap (blockWire (fw_pad fw)) ++ [4])) ∧
    (∀ fwp i, (blockWire fwp i).take 3 =
        [1, (1 + i) % 256, 255 - (1 + i) % 256]) ∧
    ((1 + 256) % 256 = 1 ∧ 255 - (1 + 256) % 256 = 254 ∧ (1 + 255) % 256 = 0)
    := by
  refine ⟨?_, ?_, by norm_num, by norm_num, by norm_num⟩
  · intro fw n hfw hn
    have heq := xb_firmware_update_allAck fw n hfw hn
    unfold updResult updTrace
    rw [heq]
    exact ⟨rfl, rfl⟩
  · intro fwp i
    simp [blockWire]

theorem C3_block_number_wraps_mod_256_witness :
    updResult (allAckEnv 257) (List.replicate 32896 0) = FwResult.success ∧
    updTrace (allAckEnv 257) (List.replicate 32896 0) =
      49 :: ((List.range 257).flatMap
        (blockWire (fw_pad (List.replicate 32896 0))) ++ [4]) :=
  C3_block_number_wraps_mod_256.1 (List.replicate 32896 0) 257
    (by rw [List.length_replicate]; norm_num)
    (by rw [List.length_replicate]; norm_num [padded_len])

theorem updTrace_allAck (fw : List Byte) (n : Nat) (hfw : fw.length ≠ 0)
    (hn : padded_len fw.length = 128 * n) :
    updTrace (allAckEnv n) fw =
      49 :: ((List.range n).flatMap (blockWire (fw_pad fw)) ++ [4]) := by
  unfold updTrace
  rw [xb_firmware_update_allAck fw n hfw hn]

/-- C3 counterexample: the claim says no transmitted block ever carries
block-number byte 0.  For a 256-block (32768-byte) image and a device
that acknowledges everything, the transmitted stream is the menu byte
followed by the 256 wire blocks and EOT, and the three header bytes of
the 256th block (after the menu byte and 255 blocks of 133 wire bytes
each) are SOH, block number 0, complement 255. -/
theorem C3_counterexample_block_number_zero :
    updTrace (allAckEnv 256) (List.replicate 32768 0) =
      49 :: ((List.range 256).flatMap
        (blockWire (fw_pad (List.replicate 32768 0))) ++ [4]) ∧
    ((updTrace (allAckEnv 256) (List.replicate 32768 0)).drop
        (1 + 133 * 255)).take 3 = [1, 0, 255] := by
  have heq := xb_firmware_update_allAck (List.replicate 32768 0) 256
    (by rw [List.length_replicate]; norm_num)
    (by rw [List.length_replicate]; norm_num [padded_len])
  have htr := updTrace_allAck (List.replicate 32768 0) 256
    (by rw [List.length_replicate]; norm_num)
    (by rw [List.length_replicate]; norm_num [padded_len])
  refine ⟨htr, ?_⟩
  rw [htr]
  have hlen_pad : (fw_pad (List.replicate 32768 (0 : Byte))).length = 32768 := by
    rw [fw_pad_length, List.length_replicate]
    norm_num [padded_len]
  have hsplit : List.range 256 = List.range' 0 255 ++ List.range' 255 1 := by
    rw [List.range_eq_range']
    have h := List.range'_append 0 255 1 1
    norm_num at h ⊢
    exact h.symm
  have hlenA : ((List.range' 0 255).flatMap
      (blockWire (fw_pad (List.replicate 32768 0)))).length = 33915 := by
    rw [flatMap_blockWire_length _ 255 0 (by rw [hlen_pad]; norm_num)]
  have hstep : (1 + 133 * 255) = 33915 + 1 := by norm_num
  rw [hstep, List.drop_succ_cons, hsplit, List.flatMap_append,
    List.append_assoc, List.drop_left' hlenA]
  have hone : List.range' 255 1 = [255] := by
    rw [List.range'_succ]
    rfl
  rw [hone]
  simp only [blockWire, List.flatMap_cons, List.flatMap_nil, List.append_nil,
    List.cons_append, List.take_succ_cons, List.take_zero]

/-- C6: for every firmware of length L > 0 the padded image length is the
least multiple of 128 that is ≥ L, the first L bytes are the original
file contents, the bytes from L to the end are 0xFF; in particular a
300-byte firmware pads to 384 bytes, is sent as 3 blocks by an
all-acknowledging device (success, one progress print per block), and
the last 84 bytes of the third 128-byte payload are 0xFF. -/
theorem C6_padding_to_block_boundary :
    ∀ fw : List Byte, 0 < fw.length →
      (padded_len fw.length % 128 = 0 ∧
       fw.length ≤ padded_len fw.length ∧
       (∀ m, m % 128 = 0 → fw.length ≤ m → padded_len fw.length ≤ m)) ∧
      (fw_pad fw).length = padded_len fw.length ∧
      (fw_pad fw).take fw.length = fw ∧
      (fw_pad fw).drop fw.length =
        List.replicate (padded_len fw.length - fw.length) 255 ∧
      (fw.length = 300 →
        padded_len 300 = 384 ∧ padded_len 300 / 128 = 3 ∧
        updResult (allAckEnv 3) fw = FwResult.success ∧
        updProg (allAckEnv 3) fw = 3 ∧
        (((fw_pad fw).drop 256).take 128).drop 44 = List.replicate 84 255) := by
  intro fw hL
  refine ⟨⟨padded_len_mod fw.length, le_padded_len fw.length,
    fun m hm hLm => padded_len_min fw.length m hm hLm⟩,
    fw_pad_length fw, fw_pad_take fw, fw_pad_drop fw, ?_⟩
  intro h300
  have hp300 : padded_len 300 = 384 := by norm_num [padded_len]
  have hn : padded_len fw.length = 128 * 3 := by rw [h300, hp300]
  have heq := xb_firmware_update_allAck fw 3 (by omega) hn
  have hlenpad : (fw_pad fw).length = 384 := by
    rw [fw_pad_length, h300, hp300]
  refine ⟨hp300, by rw [hp300], ?_, ?_, ?_⟩
  · unfold updResult
    rw [heq]
  · unfold updProg
    rw [heq]
  · have htake : ((fw_pad fw).drop 256).take 128 = (fw_pad fw).drop 256 := by
      apply List.take_of_length_le
      rw [List.length_drop, hlenpad]
    rw [htake, List.drop_drop]
    have hpad : fw_pad fw = fw ++ List.replicate 84 255 := by
      unfold fw_pad
      rw [h300, hp300]
    rw [hpad]
    have h44 : 256 + 44 = 300 := by norm_num
    rw [h44, List.drop_left' h300]

theorem C6_padding_to_block_boundary_witness :
    0 < (List.replicate 300 (7 : Byte)).length ∧
    (padded_len 300 = 384 ∧ padded_len 300 / 128 = 3 ∧
     updResult (allAckEnv 3) (List.replicate 300 7) = FwResult.success ∧
     updProg (allAckEnv 3) (List.replicate 300 7) = 3 ∧
     (((fw_pad (List.replicate 300 7)).drop 256).take 128).drop 44 =
       List.replicate 84 255) :=
  ⟨by rw [List.length_replicate]; norm_num,
   (C6_padding_to_block_boundary (List.replicate 300 7)
     (by rw [List.length_replicate]; norm_num)).2.2.2.2
     (by rw [List.length_replicate])⟩

/-- C10: the OK-wait never surfaces an error.  A read error is handled
identically to a read that returns no byte — both fall through to the
100ms sleep and a retry — so a stream whose every entry is an error is
consumed without the loop ever returning (`none`: the C loop runs
forever, it has no error exit).  Once a read returns a byte equal to
`'O'` (79), the function returns after issuing exactly two more
single-byte reads whose results are not examined. -/
theorem C10_wait_for_ok_never_errors :
    (∀ rs, wait_for_ok_go (RdRes.err :: rs) =
        wait_for_ok_go (RdRes.bytes [] :: rs)) ∧
    (∀ rs, (∀ e ∈ rs, e = RdRes.err) → wait_for_ok_go rs = none) ∧
    (∀ env tl rs, env.reads = RdRes.bytes (79 :: tl) :: rs →
        wait_for_ok env = some { env with reads := rs.drop 2 }) := by
  refine ⟨fun rs => by simp [wait_for_ok_go], ?_, ?_⟩
  · intro rs h
    induction rs with
    | nil => rfl
    | cons e rest ih =>
        have he : e = RdRes.err := h e (by simp)
        subst he
        have hrest : ∀ x ∈ rest, x = RdRes.err := fun x hx => h x (by simp [hx])
        simpa [wait_for_ok_go] using ih hrest
  · intro env tl rs h
    simp [wait_for_ok, h, wait_for_ok_go]

theorem C10_wait_for_ok_never_errors_witness :
    wait_for_ok_go [RdRes.err, RdRes.err] = none ∧
    wait_for_ok (Env.mk [RdRes.bytes [79], RdRes.bytes [75], RdRes.bytes [13],
        RdRes.err] [] []) = some (Env.mk [RdRes.err] [] []) :=
  ⟨C10_wait_for_ok_never_errors.2.1 [RdRes.err, RdRes.err] (by decide),
   C10_wait_for_ok_never_errors.2.2
     (Env.mk [RdRes.bytes [79], RdRes.bytes [75], RdRes.bytes [13], RdRes.err]
       [] []) [] [RdRes.bytes [75], RdRes.bytes [13], RdRes.err] rfl⟩

theorem probe_loop_answers :
    ∀ j n ans rest ps w ws',
      j < n → ans.take 1024 ≠ [] → 1 ≤ w →
      probe_loop (Env.mk (List.replicate j (RdRes.bytes []) ++
          RdRes.bytes ans :: rest) (false :: ps)
          (List.replicate (j + 1) w ++ ws')) n =
        (true, Env.mk rest ps ws', List.replicate (j + 1) 13, j + 1) := by
  intro j
  induction j with
  | zero =>
      intro n ans rest ps w ws' hn hans hw
      cases n with
      | zero => omega
      | succ m =>
          simp only [probe_loop, List.replicate, List.nil_append,
            List.singleton_append]
          rw [xb_write_full _ w ws' [13] (by simp) (by simpa using hw) rfl]
          rw [xb_read_chunk ans rest ps ws' 1024 hans]
          have hpos : (0 : Int) < ((ans.take 1024).length : Int) := by
            exact_mod_cast List.length_pos.mpr hans
          rw [if_pos hpos]
  | succ j ih =>
      intro n ans rest ps w ws' hn hans hw
      cases n with
      | zero => omega
      | succ m =>
          have hreads : List.replicate (j + 1) (RdRes.bytes []) ++
              RdRes.bytes ans :: rest =
              RdRes.bytes [] :: (List.replicate j (RdRes.bytes []) ++
                RdRes.bytes ans :: rest) := by
            simp [List.replicate_succ]
          have hwrites : List.replicate (j + 1 + 1) w ++ ws' =
              w :: (List.replicate (j + 1) w ++ ws') := by
            simp [List.replicate_succ]
          simp only [probe_loop, hreads, hwrites]
          rw [xb_write_full _ w (List.replicate (j + 1) w ++ ws') [13]
            (by simp) (by simpa using hw) rfl]
          rw [xb_read_nil_head]
          rw [if_neg (by norm_num)]
          rw [ih m ans rest ps w ws' (by omega) hans hw]
          simp [List.replicate_succ]

theorem probe_loop_never :
    ∀ n rest ps w ws', 1 ≤ w →
      probe_loop (Env.mk (List.replicate n (RdRes.bytes []) ++ rest) ps
          (List.replicate n w ++ ws')) n =
        (false, Env.mk rest ps ws', List.replicate n 13, n) := by
  intro n
  induction n with
  | zero =>
      intro rest ps w ws' hw
      simp [probe_loop]
  | succ n ih =>
      intro rest ps w ws' hw
      have hreads : List.replicate (n + 1) (RdRes.bytes []) ++ rest =
          RdRes.bytes [] :: (List.replicate n (RdRes.bytes []) ++ rest) := by
        simp [List.replicate_succ]
      have hwrites : List.replicate (n + 1) w ++ ws' =
          w :: (List.replicate n w ++ ws') := by
        simp [List.replicate_succ]
      simp only [probe_loop, hreads, hwrites]
      rw [xb_write_full _ w (List.replicate n w ++ ws') [13]
        (by simp) (by simpa using hw) rfl]
      rw [xb_read_nil_head]
      rw [if_neg (by norm_num)]
      rw [ih rest ps w ws' hw]
      simp [List.replicate_succ]

theorem updTrace_mem_menu (rds : List RdRes) (ps : List Bool) (wm : Nat)
    (ws : List Nat) (fw : List Byte) (hw : 1 ≤ wm) :
    49 ∈ updTrace (Env.mk rds ps (wm :: ws)) fw := by
  unfold updTrace
  simp only [xb_firmware_update]
  rw [xb_write_full _ wm ws [49] (by simp) (by simpa using hw) rfl]
  rw [if_neg (by simp)]
  repeat' split
  all_goals simp

theorem rawWrite_cons (rds : List RdRes) (ps : List Bool) (w : Nat)
    (ws : List Nat) (buf : List Byte) :
    rawWrite (Env.mk rds ps (w :: ws)) buf =
      (buf.take (min w buf.length), Env.mk rds ps ws) := rfl

/-- C1 counterexample: the claim says that when the prompt probe gets no
reply in 20 attempts the session fails with `BootloaderUnreachable` and
the transfer phase is not entered.  On a device that answers the two
OK-waits but never answers any of the 20 probes, `main` falls through to
the transfer phase anyway (the C code has no check after the loop, only
the comment `check for "BL >" prompt`): the menu-selection byte `'1'`
(49) is written to the link, and the process fails only later, inside
the transfer phase. -/
theorem C1_counterexample_probe_exhaustion_not_fatal :
    (main_session (Env.mk
        ([RdRes.bytes [79], RdRes.bytes [75], RdRes.bytes [13],
          RdRes.bytes [79], RdRes.bytes [75], RdRes.bytes [13]] ++
          List.replicate 20 (RdRes.bytes [])) []
        ([3, 5] ++ List.replicate 20 1 ++ [1])) []).1 =
      MainOut.exitFailure ∧
    Act.wire 49 ∈ (main_session (Env.mk
        ([RdRes.bytes [79], RdRes.bytes [75], RdRes.bytes [13],
          RdRes.bytes [79], RdRes.bytes [75], RdRes.bytes [13]] ++
          List.replicate 20 (RdRes.bytes [])) []
        ([3, 5] ++ List.replicate 20 1 ++ [1])) []).2 := by
  constructor
  · decide
  · decide

/-- C1 (amended): the bootloader-prompt probe sends a carriage return
and attempts an idle-read, up to 20 attempts; a device whose first
non-empty reply comes on attempt `j + 1 ≤ 20` ends the probe after
exactly `j + 1` carriage-return writes with the reply observed; a device
that never replies exhausts all 20 attempts (20 writes, no reply
observed) — but no error is raised and no `BootloaderUnreachable` path
exists: `main` proceeds into the transfer phase regardless, writing the
menu byte `'1'` (49) to the link. -/
theorem C1_probe_retries_then_proceeds_anyway :
    (∀ j n ans rest ps w ws', j < n → ans.take 1024 ≠ [] → 1 ≤ w →
        probe_loop (Env.mk (List.replicate j (RdRes.bytes []) ++
            RdRes.bytes ans :: rest) (false :: ps)
            (List.replicate (j + 1) w ++ ws')) n =
          (true, Env.mk rest ps ws', List.replicate (j + 1) 13, j + 1)) ∧
    (∀ rest ps w ws', 1 ≤ w →
        probe_loop (Env.mk (List.replicate 20 (RdRes.bytes []) ++ rest) ps
            (List.replicate 20 w ++ ws')) 20 =
          (false, Env.mk rest ps ws', List.replicate 20 13, 20)) ∧
    (∀ fw x1 x2 y1 y2 rest ps wa wb w wm ws, 5 ≤ wb → 1 ≤ w → 1 ≤ wm →
        Act.wire 49 ∈ (main_session (Env.mk
          ([RdRes.bytes [79], x1, x2, RdRes.bytes [79], y1, y2] ++
            (List.replicate 20 (RdRes.bytes []) ++ rest)) ps
          (wa :: wb :: (List.replicate 20 w ++ (wm :: ws)))) fw).2) := by
  refine ⟨probe_loop_answers, fun rest ps w ws' hw =>
    probe_loop_never 20 rest ps w ws' hw, ?_⟩
  intro fw x1 x2 y1 y2 rest ps wa wb w wm ws hwb hw hwm
  have h1 : wait_for_ok (Env.mk
      ([RdRes.bytes [79], x1, x2, RdRes.bytes [79], y1, y2] ++
        (List.replicate 20 (RdRes.bytes []) ++ rest)) ps
      (wb :: (List.replicate 20 w ++ (wm :: ws)))) =
      some (Env.mk ([RdRes.bytes [79], y1, y2] ++
        (List.replicate 20 (RdRes.bytes []) ++ rest)) ps
        (wb :: (List.replicate 20 w ++ (wm :: ws)))) := by
    simp [wait_for_ok, wait_for_ok_go]
  have hwr : xb_write (Env.mk ([RdRes.bytes [79], y1, y2] ++
      (List.replicate 20 (RdRes.bytes []) ++ rest)) ps
      (wb :: (List.replicate 20 w ++ (wm :: ws)))) [65, 84, 70, 82, 13] =
      (0, Env.mk ([RdRes.bytes [79], y1, y2] ++
        (List.replicate 20 (RdRes.bytes []) ++ rest)) ps
        (List.replicate 20 w ++ (wm :: ws)), [65, 84, 70, 82, 13]) :=
    xb_write_full _ wb _ _ (by simp) (by simpa using hwb) rfl
  have h2 : wait_for_ok (Env.mk ([RdRes.bytes [79], y1, y2] ++
      (List.replicate 20 (RdRes.bytes []) ++ rest)) ps
      (List.replicate 20 w ++ (wm :: ws))) =
      some (Env.mk (List.replicate 20 (RdRes.bytes []) ++ rest) ps
        (List.replicate 20 w ++ (wm :: ws))) := by
    simp [wait_for_ok, wait_for_ok_go]
  have hcmd : xb_send_command (Env.mk ([RdRes.bytes [79], y1, y2] ++
      (List.replicate 20 (RdRes.bytes []) ++ rest)) ps
      (wb :: (List.replicate 20 w ++ (wm :: ws)))) 70 82 none =
      ([65, 84, 70, 82, 13], some (0,
        Env.mk (List.replicate 20 (RdRes.bytes []) ++ rest) ps
          (List.replicate 20 w ++ (wm :: ws)))) := by
    simp only [xb_send_command, buildReq, hwr, h2]
    rfl
  have hpr := probe_loop_never 20 rest ps w (wm :: ws) hw
  rcases hup : xb_firmware_update (Env.mk rest ps (wm :: ws)) fw
    with ⟨res, e5, o5, pg⟩
  have hmem : 49 ∈ o5 := by
    have h := updTrace_mem_menu rest ps wm ws fw hwm
    unfold updTrace at h
    rw [hup] at h
    exact h
  simp only [main_session, rawWrite_cons, h1, hcmd, hpr, hup]
  cases res <;> simp [List.mem_append, List.mem_map] <;> tauto

theorem C1_probe_retries_then_proceeds_anyway_witness :
    probe_loop (Env.mk (List.replicate 14 (RdRes.bytes []) ++
        RdRes.bytes [66, 76] :: []) [false]
        (List.replicate 15 1 ++ [])) 20 =
      (true, Env.mk [] [] [], List.replicate 15 13, 15) ∧
    probe_loop (Env.mk (List.replicate 20 (RdRes.bytes []) ++ []) []
        (List.replicate 20 1 ++ [])) 20 =
      (false, Env.mk [] [] [], List.replicate 20 13, 20) :=
  ⟨C1_probe_retries_then_proceeds_anyway.1 14 20 [66, 76] [] [] 1 []
     (by norm_num) (by decide) (by norm_num),
   C1_probe_retries_then_proceeds_anyway.2.1 [] [] 1 [] (by norm_num)⟩

/-- C4 counterexample: the claim says that whenever the session fails
the program still restores the link's baud rate before exiting.  On a
device that answers both OK-waits, answers the first probe, and then
replies `'X'` instead of `'C'` to the upload request, the transfer
aborts, `main` exits with failure via `errx`, and no 9600-baud
restore action appears anywhere in the trace — the only baud action is
the 115200 switch. -/
theorem C4_counterexample_no_baud_restore_on_failure :
    (main_session (Env.mk [RdRes.bytes [79], RdRes.bytes [75],
        RdRes.bytes [13], RdRes.bytes [79], RdRes.bytes [75],
        RdRes.bytes [13], RdRes.bytes [66], RdRes.bytes [88]]
        [false, false] [3, 5, 1, 1]) []).1 = MainOut.exitFailure ∧
    Act.setBaud 9600 ∉ (main_session (Env.mk [RdRes.bytes [79],
        RdRes.bytes [75], RdRes.bytes [13], RdRes.bytes [79],
        RdRes.bytes [75], RdRes.bytes [13], RdRes.bytes [66],
        RdRes.bytes [88]] [false, false] [3, 5, 1, 1]) []).2 := by
  constructor
  · decide
  · decide

/-- C4 (amended): the 9600-baud restore is performed only on the success
path.  Whenever `main` exits with failure after the probe phase — in
particular when the XMODEM transfer aborts — the process exits
immediately via `errx` and no baud-rate restore action is emitted;
when it exits successfully the restore action is on the trace. -/
theorem C4_baud_restored_only_on_success :
    ∀ env fw,
      ((main_session env fw).1 = MainOut.exitFailure →
        Act.setBaud 9600 ∉ (main_session env fw).2) ∧
      ((main_session env fw).1 = MainOut.exitSuccess →
        Act.setBaud 9600 ∈ (main_session env fw).2) := by
  intro env fw
  rcases hr0 : rawWrite env [43, 43, 43] with ⟨o0, env1⟩
  rcases h1 : wait_for_ok env1 with - | env2
  · constructor <;> intro h <;> simp only [main_session, hr0, h1] at h <;>
      simp at h
  · rcases hsc : xb_send_command env2 70 82 none with ⟨o2, orest⟩
    rcases orest with - | ir
    · constructor <;> intro h <;>
        simp only [main_session, hr0, h1, hsc] at h <;> simp at h
    · rcases hpr : probe_loop ir.2 20 with ⟨f, env4, o4, k⟩
      rcases hup : xb_firmware_update env4 fw with ⟨res, env5, o5, prog⟩
      constructor <;> intro h <;>
        simp only [main_session, hr0, h1, hsc, hpr, hup] at h ⊢ <;>
        cases res <;> simp_all

set_option maxRecDepth 8000 in
theorem C4_baud_restored_only_on_success_witness :
    (main_session (Env.mk [RdRes.bytes [79], RdRes.bytes [75],
        RdRes.bytes [13], RdRes.bytes [79], RdRes.bytes [75],
        RdRes.bytes [13], RdRes.bytes [66], RdRes.bytes [67],
        RdRes.bytes [6], RdRes.bytes [6]] [false, false, false]
        [3, 5, 1, 1, 3, 128, 2, 1, 1]) (List.replicate 128 0)).1 =
      MainOut.exitSuccess ∧
    Act.setBaud 9600 ∈ (main_session (Env.mk [RdRes.bytes [79],
        RdRes.bytes [75], RdRes.bytes [13], RdRes.bytes [79],
        RdRes.bytes [75], RdRes.bytes [13], RdRes.bytes [66],
        RdRes.bytes [67], RdRes.bytes [6], RdRes.bytes [6]]
        [false, false, false] [3, 5, 1, 1, 3, 128, 2, 1, 1])
        (List.replicate 128 0)).2 :=
  ⟨by decide,
   (C4_baud_restored_only_on_success (Env.mk [RdRes.bytes [79],
       RdRes.bytes [75], RdRes.bytes [13], RdRes.bytes [79],
       RdRes.bytes [75], RdRes.bytes [13], RdRes.bytes [66],
       RdRes.bytes [67], RdRes.bytes [6], RdRes.bytes [6]]
       [false, false, false] [3, 5, 1, 1, 3, 128, 2, 1, 1])
       (List.replicate 128 0)).2 (by decide)⟩
